import Mathlib

/-!
Formal model of the identity and session-lifecycle core of the Samudra Sahayak
backend (src/backend/sih/app).  The Python routes and utilities are shallowly
embedded as pure Lean functions:

* the MongoDB `users` collection becomes a `List Account`, with `find_one`
  modelled by `List.find?` and `update_one` by `updateOne` (first match);
* JWTs (python-jose) become an inductive `Token`: a well-formed signed token
  carries its payload and the secret that signed it, anything else is
  `malformed`; `jwt.decode` succeeds exactly on a matching secret and an
  unexpired `exp` claim;
* timestamps are `Nat` seconds, passed explicitly as `now`;
* randomness (fresh verification/reset token strings, fresh ObjectIds) is
  passed in as explicit arguments;
* `HTTPException` becomes an `ApiError` value carrying status and detail.

Sources: src/backend/sih/app/routes/auth.py, src/backend/sih/app/utils/auth.py,
src/backend/sih/app/utils/validation.py, src/backend/sih/app/config.py.
-/

/-- JWT lifetime configuration, from `app/config.py` defaults:
`JWT_ACCESS_EXPIRES = 15` minutes, `JWT_REFRESH_EXPIRES = 7` days,
`JWT_GUEST_EXPIRES = 10` minutes; all converted to seconds. -/
def accessTTL : Nat := 15 * 60

/-- Refresh-token lifetime in seconds (7 days, `JWT_REFRESH_EXPIRES`). -/
def refreshTTL : Nat := 7 * 24 * 60 * 60

/-- Guest-token lifetime in seconds (10 minutes, `JWT_GUEST_EXPIRES`). -/
def guestTTL : Nat := 10 * 60

/-- The two signing secrets of `app/config.py` (`JWT_SECRET` and
`JWT_REFRESH_SECRET`), modelled as two distinct abstract values. -/
inductive Secret where
  | accessSecret
  | refreshSecret
deriving DecidableEq, Repr

/-- Claims of a JWT as produced by `utils/auth.py`: the optional `id` claim
(account id), the optional `role` claim, the optional `jti` claim (guest
session id), the `type` discriminator claim and the `exp` expiry. -/
structure JwtPayload where
  id : Option Nat
  role : Option String
  jti : Option String
  typ : String
  exp : Nat
deriving DecidableEq, Repr

/-- A bearer token: either a well-formed JWT signed with one of the two
secrets, or an arbitrary malformed / badly-signed string. -/
inductive Token where
  | signed (secret : Secret) (payload : JwtPayload)
  | malformed (raw : String)
deriving DecidableEq, Repr

/-- Semantics of `jose.jwt.decode(token, secret, algorithms=[...])`: succeeds
iff the token is well formed, was signed with the supplied secret, and its
`exp` claim has not passed (jose raises `ExpiredSignatureError`, a `JWTError`,
once `exp <= now`). -/
def jwtDecode (now : Nat) (tok : Token) (secret : Secret) : Option JwtPayload :=
  match tok with
  | .malformed _ => none
  | .signed s p => if s = secret ∧ now < p.exp then some p else none

/-- Structured detail of a FastAPI `HTTPException` raised by the auth routes:
either a plain message string, a field-errors dict (register), or the two
dict-shaped 403 details of `login`. -/
inductive Detail where
  | msg (s : String)
  | fieldErrors (errors : List (String × String))
  | verificationNeeded (error : String) (userId : Nat)
  | officialPending (error : String)
deriving DecidableEq, Repr

/-- An `HTTPException(status_code, detail)` value. -/
structure ApiError where
  status : Nat
  detail : Detail
deriving DecidableEq, Repr

/-- Rendering of a `Detail` as Python `str()` renders the `detail` attribute;
only the `msg` case is ever reached by the modelled flows. -/
def detailText : Detail → String
  | .msg s => s
  | .fieldErrors _ => ""
  | .verificationNeeded e _ => e
  | .officialPending e => e

/-- Secret selection of `verify_token` (`utils/auth.py` line 102):
`JWT_SECRET` if the expected type is `"access"`, else `JWT_REFRESH_SECRET`. -/
def secretFor (token_type : String) : Secret :=
  if token_type = "access" then Secret.accessSecret else Secret.refreshSecret

/-- Model of `verify_token` (`utils/auth.py` lines 99-110): decode with the
secret selected by the expected type; a `JWTError` (malformed, badly signed or
expired input) yields 401 "Invalid or expired token"; a decoded payload whose
`type` claim differs from the expected type yields 401 "Invalid token type". -/
def verify_token (now : Nat) (token : Token) (token_type : String) :
    Except ApiError JwtPayload :=
  match jwtDecode now token (secretFor token_type) with
  | none => Except.error ⟨401, Detail.msg "Invalid or expired token"⟩
  | some payload =>
    if payload.typ = token_type then Except.ok payload
    else Except.error ⟨401, Detail.msg "Invalid token type"⟩

/-- Model of `create_access_token` (`utils/auth.py` lines 58-68) as called by
`generate_tokens`: signed with `JWT_SECRET`, `type="access"`, default TTL. -/
def create_access_token (now : Nat) (uid : Nat) (role : String) : Token :=
  Token.signed Secret.accessSecret ⟨some uid, some role, none, "access", now + accessTTL⟩

/-- Model of `create_refresh_token` (`utils/auth.py` lines 71-77): signed with
`JWT_REFRESH_SECRET`, `type="refresh"`, 7-day TTL. -/
def create_refresh_token (now : Nat) (uid : Nat) : Token :=
  Token.signed Secret.refreshSecret ⟨some uid, none, none, "refresh", now + refreshTTL⟩

/-- Model of `create_guest_token` (`utils/auth.py` lines 80-88): signed with
`JWT_SECRET` (the access secret), a random `jti`, `type="guest"`. -/
def create_guest_token (now : Nat) (jti : String) : Token :=
  Token.signed Secret.accessSecret ⟨none, none, some jti, "guest", now + guestTTL⟩

/-- Access/refresh pair returned by `generate_tokens`. -/
structure TokenPair where
  accessToken : Token
  refreshToken : Token
deriving DecidableEq, Repr

/-- Modelled from the spec: bcrypt (the passlib `CryptContext` with
`bcrypt__truncate_error=False` configured in `utils/auth.py` lines 16-21) is an
external primitive whose code is not part of this repository.  Per spec 4.2 it
is an ideal injective one-way function of the first 72 bytes of the password;
the ideal hash is represented by that 72-byte truncation itself, and passwords
are byte strings (`List Nat`).  `hash_password` (`utils/auth.py` lines 26-38)
delegates to it. -/
def hash_password (password : List Nat) : List Nat :=
  password.take 72

/-- Model of `verify_password` (`utils/auth.py` lines 41-54): bcrypt truncates
the plain password to 72 bytes and compares against the stored hash. -/
def verify_password (plain stored : List Nat) : Bool :=
  decide (hash_password plain = stored)

/-- Characters removed by Python `str.strip()` (ASCII whitespace). -/
def isPyWhitespace (c : Char) : Bool :=
  c = ' ' || c = '\t' || c = '\n' || c = '\r' || c = Char.ofNat 11 || c = Char.ofNat 12

/-- Python `str.strip()` on a character list. -/
def pyStrip (s : List Char) : List Char :=
  ((s.dropWhile isPyWhitespace).reverse.dropWhile isPyWhitespace).reverse

/-- Character class `[a-zA-Z0-9._%+-]` of the email regex local part
(`utils/validation.py` line 10). -/
def isEmailLocalChar (c : Char) : Bool :=
  c.isAlpha || c.isDigit || c = '.' || c = '_' || c = '%' || c = '+' || c = '-'

/-- Character class `[a-zA-Z0-9.-]` of the email regex domain part. -/
def isDomainChar (c : Char) : Bool :=
  c.isAlpha || c.isDigit || c = '.' || c = '-'

/-- Domain part of the email regex: the remainder after the `@` must match
`[a-zA-Z0-9.-]+\.[a-zA-Z]` followed by at least one more ASCII letter up to the
end of the string.  Since the trailing letters contain no dot, a match splits
the string at its last dot, which this decision procedure computes by
scanning the reversed string. -/
def emailDomainOk (rest : List Char) : Bool :=
  let rrev := rest.reverse
  match rrev.dropWhile (fun x => decide (x ≠ '.')) with
  | [] => false
  | _ :: domRev =>
    let tldRev := rrev.takeWhile (fun x => decide (x ≠ '.'))
    decide (domRev ≠ []) && domRev.all isDomainChar &&
      decide (2 ≤ tldRev.length) && tldRev.all Char.isAlpha

/-- Model of `validate_email` (`utils/validation.py` lines 8-11), i.e. the
anchored regex `[a-zA-Z0-9._%+-]+@` then the domain part.  The local
character class excludes `@`, so a match splits the string at its first `@`. -/
def validate_email (cs : List Char) : Bool :=
  match cs.dropWhile (fun x => decide (x ≠ '@')) with
  | [] => false
  | _ :: rest =>
    let locl := cs.takeWhile (fun x => decide (x ≠ '@'))
    decide (locl ≠ []) && locl.all isEmailLocalChar && emailDomainOk rest

/-- Separator characters removed by `re.sub(r'[\s\-\(\)]', '', phone)` in
`validate_phone` / `normalize_phone` (`utils/validation.py` lines 14-29). -/
def isSepChar (c : Char) : Bool :=
  isPyWhitespace c || c = '-' || c = '(' || c = ')'

/-- Removal of the separator characters from a phone string. -/
def stripSeps (s : List Char) : List Char :=
  s.filter (fun c => !isSepChar c)

/-- Body of the phone regex after the optional `+`: `[1-9]` then one to
fourteen further digits, to the end of the string. -/
def phoneDigitsOk : List Char → Bool
  | [] => false
  | d :: rest =>
    (decide ('1' ≤ d) && decide (d ≤ '9')) && rest.all Char.isDigit &&
      decide (1 ≤ rest.length) && decide (rest.length ≤ 14)

/-- Model of `validate_phone` (`utils/validation.py` lines 14-21): strip
separators, then match the anchored regex `\+?[1-9]` followed by 1-14 digits.
A leading `+`, when present, must be consumed by the optional `\+?`. -/
def validate_phone (s : List Char) : Bool :=
  let clean := stripSeps s
  if clean.head? = some '+' then phoneDigitsOk clean.tail
  else phoneDigitsOk clean

/-- Model of `normalize_phone` (`utils/validation.py` lines 24-29): strip
separators and prepend `+` unless already present. -/
def normalize_phone (s : List Char) : List Char :=
  let clean := stripSeps s
  if clean.head? = some '+' then clean
  else '+' :: clean

/-- Credential class of `validate_credential`. -/
inductive CredentialType where
  | email
  | phone
deriving DecidableEq, Repr

/-- Result dict of `validate_credential` (`utils/validation.py` lines 32-59). -/
structure CredValidation where
  isValid : Bool
  type : Option CredentialType
  value : Option (List Char)
  error : Option String
deriving DecidableEq, Repr

/-- Model of `validate_credential` (`utils/validation.py` lines 32-59): strip
surrounding whitespace, try the email shape first, then the phone shape;
emails are lower-cased, phones normalized; otherwise invalid. -/
def validate_credential (credential : List Char) : CredValidation :=
  let credential := pyStrip credential
  if validate_email credential then
    ⟨true, some CredentialType.email, some (credential.map Char.toLower), none⟩
  else if validate_phone credential then
    ⟨true, some CredentialType.phone, some (normalize_phone credential), none⟩
  else
    ⟨false, none, none, some "Please provide a valid email address or phone number"⟩

/-- One entry of the bounded refresh-token list: the pushed document
`\x7btoken, createdAt\x7d` of `routes/auth.py` lines 238-242. -/
structure RefreshEntry where
  token : Token
  createdAt : Nat
deriving DecidableEq, Repr

/-- A document of the `users` collection, with the fields read or written by
the auth routes.  Text fields subject to normalization are `List Char`;
`password` holds the bcrypt hash; `officialId`/`organization` use `[]` for the
empty string that `sanitize_user_data` substitutes for a missing value.
Fields never read nor written by the modelled operations (`loginAttempts` is
kept; `notificationPreferences` is a constant nested dict set once at insert
and never touched again, omitted). -/
structure Account where
  id : Nat
  fullName : List Char
  email : List Char
  phone : Option (List Char)
  password : List Nat
  role : String
  language : String
  profession : String
  isVerified : Bool
  isOfficialVerified : Bool
  verificationToken : Option String
  verificationTokenExpires : Option Nat
  passwordResetToken : Option String
  passwordResetExpires : Option Nat
  refreshTokens : List RefreshEntry
  lastLogin : Option Nat
  officialId : List Char
  organization : List Char
  loginAttempts : Nat
  createdAt : Nat
  updatedAt : Nat
deriving DecidableEq, Repr

/-- The `users` collection. -/
abbrev DB := List Account

/-- Mongo `update_one`: apply `f` to the first document matching `p`. -/
def updateOne (p : Account → Bool) (f : Account → Account) : DB → DB
  | [] => []
  | a :: rest => if p a then f a :: rest else a :: updateOne p f rest

/-- Mongo `$push` with `$each: [e]` and `$slice: -5`: append, then keep the
last five entries (`routes/auth.py` lines 237-245 and 482-491). -/
def pushTrim5 (l : List RefreshEntry) (e : RefreshEntry) : List RefreshEntry :=
  let grown := l ++ [e]
  grown.drop (grown.length - 5)

/-- Mongo `$pull: \x7brefreshTokens: \x7btoken: t\x7d\x7d`: remove every entry whose
token equals `t` (`routes/auth.py` lines 472-477). -/
def pullToken (l : List RefreshEntry) (t : Token) : List RefreshEntry :=
  l.filter (fun entry => decide (entry.token ≠ t))

/-- Model of `generate_tokens` (`utils/auth.py` lines 91-95). -/
def generate_tokens (now : Nat) (user : Account) : TokenPair :=
  ⟨create_access_token now user.id user.role, create_refresh_token now user.id⟩

/-- User-lookup query of `login` (`routes/auth.py` lines 196-204): by
normalized email for an email credential; for a phone credential, by the raw
request string or the normalized value (`$in`). -/
def loginQuery (cv : CredValidation) (raw : List Char) (a : Account) : Bool :=
  match cv.type, cv.value with
  | some CredentialType.email, some v => decide (a.email = v)
  | some CredentialType.phone, some v =>
    decide (a.phone = some raw) || decide (a.phone = some v)
  | _, _ => false

/-- The `update_one` document of a successful login (`routes/auth.py` lines
234-248): push the new refresh token with trim, set `lastLogin`. -/
def loginUpdate (now : Nat) (rt : Token) (a : Account) : Account :=
  { a with refreshTokens := pushTrim5 a.refreshTokens ⟨rt, now⟩, lastLogin := some now }

/-- Model of `login` (`routes/auth.py` lines 186-275).  Returns the resulting
collection plus either an error or the pre-update user record together with
the issued token pair (the route also sets the refresh cookie from the same
pair).  Error paths leave the collection untouched. -/
def login (db : DB) (now : Nat) (credential : List Char) (password : List Nat) :
    DB × Except ApiError (Account × TokenPair) :=
  let cv := validate_credential credential
  if cv.isValid = false then
    (db, Except.error ⟨400, Detail.msg (cv.error.getD "")⟩)
  else
    match List.find? (loginQuery cv credential) db with
    | none => (db, Except.error ⟨401, Detail.msg "Invalid credentials"⟩)
    | some user =>
      if verify_password password user.password = false then
        (db, Except.error ⟨401, Detail.msg "Invalid credentials"⟩)
      else if user.isVerified = false then
        (db, Except.error ⟨403, Detail.verificationNeeded "Please verify your account first" user.id⟩)
      else if user.role = "official" ∧ user.isOfficialVerified = false then
        (db, Except.error ⟨403, Detail.officialPending
          "Your official account is pending verification. Please contact your administrator."⟩)
      else
        let tokens := generate_tokens now user
        (updateOne (fun a => decide (a.id = user.id)) (loginUpdate now tokens.refreshToken) db,
          Except.ok (user, tokens))

/-- The `$pull` document of `refresh_token` (`routes/auth.py` lines 472-477):
remove the presented token from the account's list. -/
def pullUpdate (t : Token) (a : Account) : Account :=
  { a with refreshTokens := pullToken a.refreshTokens t }

/-- The `$push`/`$slice: -5` document of `refresh_token`
(`routes/auth.py` lines 479-492): append the new token, keep the last five. -/
def pushUpdate (now : Nat) (newTok : Token) (a : Account) : Account :=
  { a with refreshTokens := pushTrim5 a.refreshTokens ⟨newTok, now⟩ }

/-- Model of `refresh_token` (`routes/auth.py` lines 443-521).  The whole body
after the cookie check sits in a `try` whose `except Exception as e` re-raises
`HTTPException(401, str(e))`; `str` of a caught starlette `HTTPException` is
`"<status>: <detail>"`, so every inner failure surfaces with that wrapped
detail.  `ObjectId(None)` (an absent `id` claim) builds a fresh ObjectId that
matches no user.  On success: `$pull` the presented token, then `$push` the new
one with `$slice: -5`, and return the pre-update user with the new pair. -/
def refresh_token (db : DB) (now : Nat) (cookie : Option Token) :
    DB × Except ApiError (Account × TokenPair) :=
  match cookie with
  | none => (db, Except.error ⟨401, Detail.msg "Refresh token not found"⟩)
  | some rt =>
    match verify_token now rt "refresh" with
    | Except.error e =>
      (db, Except.error ⟨401, Detail.msg (toString e.status ++ ": " ++ detailText e.detail)⟩)
    | Except.ok payload =>
      match List.find? (fun a => decide (payload.id = some a.id)) db with
      | none => (db, Except.error ⟨401, Detail.msg "401: User not found"⟩)
      | some user =>
        if (user.refreshTokens.any (fun entry => decide (entry.token = rt))) = false then
          (db, Except.error ⟨401, Detail.msg "401: Invalid refresh token"⟩)
        else
          let tokens := generate_tokens now user
          let db1 := updateOne (fun a => decide (a.id = user.id)) (pullUpdate rt) db
          let db2 := updateOne (fun a => decide (a.id = user.id))
            (pushUpdate now tokens.refreshToken) db1
          (db2, Except.ok (user, tokens))

/-- The `$set`/`$unset` document of a successful `verify_account`
(`routes/auth.py` lines 307-319). -/
def verifyUpdate (now : Nat) (a : Account) : Account :=
  { a with
    isVerified := true
    updatedAt := now
    verificationToken := none
    verificationTokenExpires := none }

/-- Model of `verify_account` (`routes/auth.py` lines 289-324): look up by
both the supplied id and the supplied token; reject if absent; reject if a
stored expiry has passed; otherwise set `isVerified` and `$unset` both
verification token fields. -/
def verify_account (db : DB) (now : Nat) (userId : Nat) (token : String) :
    DB × Except ApiError String :=
  match List.find? (fun a => decide (a.id = userId) && decide (a.verificationToken = some token)) db with
  | none => (db, Except.error ⟨400, Detail.msg "Invalid or expired verification token"⟩)
  | some user =>
    match user.verificationTokenExpires with
    | some expiry =>
      if expiry < now then
        (db, Except.error ⟨400, Detail.msg "Verification token has expired"⟩)
      else
        (updateOne (fun a => decide (a.id = user.id)) (verifyUpdate now) db,
          Except.ok "Account verified successfully")
    | none =>
      (updateOne (fun a => decide (a.id = user.id)) (verifyUpdate now) db,
        Except.ok "Account verified successfully")

/-- The `$set` document of `forgot_password` on a found user
(`routes/auth.py` lines 390-399): fresh reset token, 1-hour expiry. -/
def forgotUpdate (now : Nat) (resetTok : String) (a : Account) : Account :=
  { a with
    passwordResetToken := some resetTok
    passwordResetExpires := some (now + 3600)
    updatedAt := now }

/-- Model of `forgot_password` (`routes/auth.py` lines 364-408): validate the
credential; look up by email or normalized phone; whether or not a user is
found, answer with the same generic message built only from the credential
type; when found, additionally store a fresh reset token with a 1-hour
expiry. -/
def forgot_password (db : DB) (now : Nat) (credential : List Char) (resetTok : String) :
    DB × Except ApiError String :=
  let cv := validate_credential credential
  if cv.isValid = false then
    (db, Except.error ⟨400, Detail.msg (cv.error.getD "")⟩)
  else
    let query : Account → Bool := fun a =>
      match cv.type, cv.value with
      | some CredentialType.email, some v => decide (a.email = v)
      | some CredentialType.phone, some v => decide (a.phone = some v)
      | _, _ => false
    let typeText := match cv.type with
      | some CredentialType.email => "email"
      | some CredentialType.phone => "phone"
      | none => ""
    let message := "If an account exists with this " ++ typeText ++
      ", a password reset link has been sent."
    match List.find? query db with
    | none => (db, Except.ok message)
    | some user =>
      (updateOne (fun a => decide (a.id = user.id)) (forgotUpdate now resetTok) db,
        Except.ok message)

/-- The `$set`/`$unset` document of a successful `reset_password`
(`routes/auth.py` lines 426-438): new hash, cleared reset-token fields. -/
def resetUpdate (now : Nat) (newPassword : List Nat) (a : Account) : Account :=
  { a with
    password := hash_password newPassword
    updatedAt := now
    passwordResetToken := none
    passwordResetExpires := none }

/-- Model of `reset_password` (`routes/auth.py` lines 411-440): look up by the
reset token alone; reject if absent or expired; otherwise store the re-hashed
password and `$unset` both reset-token fields. -/
def reset_password (db : DB) (now : Nat) (token : String) (newPassword : List Nat) :
    DB × Except ApiError String :=
  match List.find? (fun a => decide (a.passwordResetToken = some token)) db with
  | none => (db, Except.error ⟨400, Detail.msg "Invalid or expired reset token"⟩)
  | some user =>
    match user.passwordResetExpires with
    | some expiry =>
      if expiry < now then
        (db, Except.error ⟨400, Detail.msg "Reset token has expired"⟩)
      else
        (updateOne (fun a => decide (a.id = user.id)) (resetUpdate now newPassword) db,
          Except.ok "Password reset successful")
    | none =>
      (updateOne (fun a => decide (a.id = user.id)) (resetUpdate now newPassword) db,
        Except.ok "Password reset successful")

/-- The fields of `UserRegisterRequest` as they reach `register` via
`request.dict()` (`app/schemas.py` lines 29-39): every key is present,
optional ones possibly `none`.  The password length rule of
`validate_registration_data` counts characters in Python; passwords are byte
strings here, so the rule counts bytes — no claim depends on the
distinction. -/
structure RegisterData where
  fullName : List Char
  email : List Char
  phone : Option (List Char)
  password : List Nat
  confirmPassword : List Nat
  role : String
  officialId : Option (List Char)
  organization : Option (List Char)
  language : String
  profession : String
deriving DecidableEq, Repr

/-- Model of `sanitize_user_data` (`utils/validation.py` lines 120-145):
strip the name, strip and lower-case the email, strip and normalize a
non-empty phone (an empty or absent phone yields no key, hence `none`),
replace an absent `officialId`/`organization` by the empty string and strip
it, pass the rest through. -/
def sanitize_user_data (d : RegisterData) : RegisterData :=
  { d with
    fullName := pyStrip d.fullName
    email := (pyStrip d.email).map Char.toLower
    phone := match d.phone with
      | some p => if p = [] then none else some (normalize_phone (pyStrip p))
      | none => none
    officialId := some (pyStrip (d.officialId.getD []))
    organization := some (pyStrip (d.organization.getD [])) }

/-- Model of `validate_registration_data` (`utils/validation.py` lines
69-117), applied by `register` to the sanitized data: the ordered association
list of field errors; registration is valid iff it is empty. -/
def registration_errors (d : RegisterData) : List (String × String) :=
  (if d.fullName = [] ∨ pyStrip d.fullName = [] then
    [("fullName", "Full name is required")]
   else if 100 < d.fullName.length then
    [("fullName", "Full name cannot exceed 100 characters")]
   else []) ++
  (if d.email = [] then [("email", "Email is required")]
   else if validate_email d.email = false then
    [("email", "Please provide a valid email address")]
   else []) ++
  (match d.phone with
   | some p =>
     if p = [] then []
     else if validate_phone p = false then
      [("phone", "Please provide a valid phone number")]
     else []
   | none => []) ++
  (if d.password = [] then [("password", "Password is required")]
   else if d.password.length < 8 then
    [("password", "Password must be at least 8 characters long")]
   else []) ++
  (if d.password ≠ d.confirmPassword then
    [("confirmPassword", "Passwords do not match")]
   else []) ++
  (if d.role ≠ "citizen" ∧ d.role ≠ "official" then [("role", "Invalid role")]
   else []) ++
  (if d.role = "official" then
    (if d.officialId.getD [] = [] then
      [("officialId", "Official ID is required for official accounts")]
     else []) ++
    (if d.organization.getD [] = [] then
      [("organization", "Organization is required for official accounts")]
     else [])
   else [])

/-- The `$or` duplicate query of `register` (`routes/auth.py` lines 52-62):
by lowered email, plus — when a phone is present — by the sanitized phone or
its (idempotent) re-normalization. -/
def registerQuery (data : RegisterData) (a : Account) : Bool :=
  decide (a.email = data.email.map Char.toLower) ||
    (match data.phone with
     | some p =>
       if p = [] then false
       else decide (a.phone = some p) || decide (a.phone = some (normalize_phone p))
     | none => false)

/-- The `$set` document overwriting an unverified duplicate account
(`routes/auth.py` lines 67-92): credential, role and profile fields, a fresh
verification token with 24-hour expiry; phone only when supplied, official
fields only for the official role.  `isVerified` is not touched. -/
def registerOverwrite (now : Nat) (data : RegisterData) (vtok : String) (a : Account) : Account :=
  let base := { a with
    fullName := data.fullName
    email := data.email.map Char.toLower
    password := hash_password data.password
    role := data.role
    language := data.language
    profession := data.profession
    verificationToken := some vtok
    verificationTokenExpires := some (now + 24 * 3600)
    updatedAt := now }
  let withPhone := match data.phone with
    | some p => if p = [] then base else { base with phone := some (normalize_phone p) }
    | none => base
  if data.role = "official" then
    { withPhone with
      officialId := data.officialId.getD []
      organization := data.organization.getD [] }
  else withPhone

/-- The freshly inserted account document of `register`
(`routes/auth.py` lines 122-157). -/
def newAccount (now : Nat) (data : RegisterData) (vtok : String) (newId : Nat) : Account :=
  { id := newId
    fullName := data.fullName
    email := data.email.map Char.toLower
    phone := match data.phone with
      | some p => if p = [] then none else some (normalize_phone p)
      | none => none
    password := hash_password data.password
    role := data.role
    language := data.language
    profession := data.profession
    isVerified := false
    isOfficialVerified := false
    verificationToken := some vtok
    verificationTokenExpires := some (now + 24 * 3600)
    passwordResetToken := none
    passwordResetExpires := none
    refreshTokens := []
    lastLogin := none
    officialId := if data.role = "official" then data.officialId.getD [] else []
    organization := if data.role = "official" then data.organization.getD [] else []
    loginAttempts := 0
    createdAt := now
    updatedAt := now }

/-- Model of `register` (`routes/auth.py` lines 37-183).  `vtok` is the random
verification token, `newId` the ObjectId a fresh insert would receive.  On
success the route re-fetches the written document by id and returns it with a
message; the re-fetch is `List.find?` by id. -/
def register (db : DB) (now : Nat) (req : RegisterData) (vtok : String) (newId : Nat) :
    DB × Except ApiError (Option Account × String) :=
  let data := sanitize_user_data req
  if registration_errors data ≠ [] then
    (db, Except.error ⟨400, Detail.fieldErrors (registration_errors data)⟩)
  else
    match List.find? (registerQuery data) db with
    | some existing =>
      if existing.isVerified then
        (db, Except.error ⟨400, Detail.msg "User already exists with this email or phone"⟩)
      else
        let db' := updateOne (fun a => decide (a.id = existing.id))
          (registerOverwrite now data vtok) db
        (db', Except.ok (List.find? (fun a => decide (a.id = existing.id)) db',
          "Registration updated successfully. Please check your email for verification."))
    | none =>
      let db' := db ++ [newAccount now data vtok newId]
      (db', Except.ok (List.find? (fun a => decide (a.id = newId)) db',
        "Registration successful. Please check your email for verification."))

/-- A step of the session workload considered by the bounded-history claim:
one `login` call or one `refresh_token` call. -/
inductive AuthOp where
  | loginOp (now : Nat) (credential : List Char) (password : List Nat)
  | refreshOp (now : Nat) (cookie : Option Token)
deriving Repr

/-- Effect of one operation on the collection. -/
def runOp (db : DB) : AuthOp → DB
  | .loginOp now c p => (login db now c p).1
  | .refreshOp now cookie => (refresh_token db now cookie).1

/-- Effect of a finite operation sequence on the collection. -/
def runOps (db : DB) (ops : List AuthOp) : DB :=
  ops.foldl runOp db

/-- A concrete fixture account used to instantiate theorems with hypotheses
at specific inputs: a verified citizen with empty optional fields. -/
def baseAcct : Account :=
  { id := 1, fullName := [], email := [], phone := none, password := [],
    role := "citizen", language := "en", profession := "citizen",
    isVerified := true, isOfficialVerified := false,
    verificationToken := none, verificationTokenExpires := none,
    passwordResetToken := none, passwordResetExpires := none,
    refreshTokens := [], lastLogin := none, officialId := [], organization := [],
    loginAttempts := 0, createdAt := 0, updatedAt := 0 }

/-- Fixture: an account holding the credential `real@x.com`. -/
def realAcct : Account :=
  { baseAcct with email := "real@x.com".toList }

/-- Fixture: a verified but not officially-approved official account with the
(hashed) password `[1,...,8]`. -/
def officialAcct : Account :=
  { baseAcct with
    id := 7
    email := "off@x.com".toList
    password := hash_password [1, 2, 3, 4, 5, 6, 7, 8]
    role := "official" }

/-- Fixture: an account holding the pending reset token `rt` expiring at
time 100, with one active refresh session. -/
def resetAcct : Account :=
  { baseAcct with
    passwordResetToken := some "rt"
    passwordResetExpires := some 100
    refreshTokens := [⟨create_refresh_token 0 1, 0⟩] }

/-- Fixture: an unverified account holding verification token `vt` expiring
at time 100. -/
def verifyAcct : Account :=
  { baseAcct with
    isVerified := false
    verificationToken := some "vt"
    verificationTokenExpires := some 100 }

/-- Fixture: a refresh token minted at some earlier instant (expiry 1000)
for account 1. -/
def oldRefreshTok : Token :=
  Token.signed Secret.refreshSecret ⟨some 1, none, none, "refresh", 1000⟩

/-- Fixture: a verified account holding `oldRefreshTok` as its one active
refresh session. -/
def sessionAcct : Account :=
  { baseAcct with refreshTokens := [⟨oldRefreshTok, 0⟩] }

/-- Fixture: a verified account whose stored refresh token was minted at
time 10 (say, by a login during that second).  Because JWT encoding is
deterministic and the `exp` claim has second granularity, an exchange in the
same second re-mints the byte-identical token. -/
def mintAcct : Account :=
  { baseAcct with refreshTokens := [⟨create_refresh_token 10 1, 10⟩] }

/-- Fixture: a valid citizen registration request for `dup@x.com`. -/
def regReq : RegisterData :=
  { fullName := "New Name".toList
    email := "dup@x.com".toList
    phone := none
    password := [1, 2, 3, 4, 5, 6, 7, 8]
    confirmPassword := [1, 2, 3, 4, 5, 6, 7, 8]
    role := "citizen"
    officialId := none
    organization := none
    language := "en"
    profession := "citizen" }

/-- Fixture: an abandoned, still unverified signup for `dup@x.com`. -/
def dupAcct : Account :=
  { baseAcct with
    email := "dup@x.com".toList
    isVerified := false
    verificationToken := some "old" }

/-- The email shape as the specification states it: a non-empty local part
over `[a-zA-Z0-9._%+-]`, an `@`, a non-empty domain over `[a-zA-Z0-9.-]`, a
final dot and a top-level label of at least two ASCII letters. -/
def specEmail (cs : List Char) : Prop :=
  ∃ locl dom tld : List Char,
    cs = locl ++ '@' :: (dom ++ '.' :: tld) ∧
    locl ≠ [] ∧ (∀ x ∈ locl, isEmailLocalChar x = true) ∧
    dom ≠ [] ∧ (∀ x ∈ dom, isDomainChar x = true) ∧
    2 ≤ tld.length ∧ (∀ x ∈ tld, x.isAlpha = true)

/-- The phone shape as the amended claim states it: after separator
stripping, an optional leading `+` followed by 2 to 15 digits whose first
digit is nonzero. -/
def specPhone (cs : List Char) : Prop :=
  ∃ ds : List Char,
    (cs = ds ∨ cs = '+' :: ds) ∧ (∀ x ∈ ds, x.isDigit = true) ∧
    2 ≤ ds.length ∧ ds.length ≤ 15 ∧ ds.head? ≠ some '0'

theorem length_updateOne (p : Account → Bool) (f : Account → Account) (db : DB) :
    (updateOne p f db).length = db.length := by
  induction db with
  | nil => rfl
  | cons a rest ih =>
    by_cases h : p a = true
    · simp [updateOne, h]
    · simp [updateOne, h, ih]

theorem mem_updateOne {p : Account → Bool} {f : Account → Account} {db : DB} {x : Account}
    (hx : x ∈ updateOne p f db) : x ∈ db ∨ ∃ a, a ∈ db ∧ x = f a := by
  induction db with
  | nil => simp [updateOne] at hx
  | cons a rest ih =>
    by_cases h : p a = true
    · simp [updateOne, h] at hx
      rcases hx with hx | hx
      · exact Or.inr ⟨a, by simp, hx⟩
      · exact Or.inl (by simp [hx])
    · simp [updateOne, h] at hx
      rcases hx with hx | hx
      · exact Or.inl (by simp [hx])
      · rcases ih hx with hmem | ⟨b, hb, hxb⟩
        · exact Or.inl (by simp [hmem])
        · exact Or.inr ⟨b, by simp [hb], hxb⟩

theorem updateOne_append_of_none {p : Account → Bool} (f : Account → Account)
    {l₁ : DB} (l₂ : DB) (h : ∀ x ∈ l₁, p x = false) :
    updateOne p f (l₁ ++ l₂) = l₁ ++ updateOne p f l₂ := by
  induction l₁ with
  | nil => simp
  | cons a rest ih =>
    have ha : p a = false := h a (by simp)
    simp only [List.cons_append, updateOne, ha]
    simp only [Bool.false_eq_true, if_false, List.cons.injEq, true_and]
    exact ih fun x hx => h x (by simp [hx])

theorem updateOne_cons_of_pos {p : Account → Bool} {f : Account → Account} {a : Account}
    (l : DB) (h : p a = true) : updateOne p f (a :: l) = f a :: l := by
  simp [updateOne, h]

theorem find?_append_of_none {α : Type} {p : α → Bool} {l₁ : List α} (l₂ : List α)
    (h : ∀ x ∈ l₁, p x = false) : List.find? p (l₁ ++ l₂) = List.find? p l₂ := by
  induction l₁ with
  | nil => simp
  | cons a rest ih =>
    have ha : p a = false := h a (by simp)
    simp only [List.cons_append, List.find?, ha]
    exact ih fun x hx => h x (by simp [hx])

theorem find?_split {α : Type} {p : α → Bool} {l : List α} {a : α}
    (h : List.find? p l = some a) :
    ∃ l₁ l₂, l = l₁ ++ a :: l₂ ∧ (∀ x ∈ l₁, p x = false) ∧ p a = true := by
  induction l with
  | nil => simp at h
  | cons b rest ih =>
    by_cases hb : p b = true
    · refine ⟨[], rest, ?_, by simp, ?_⟩
      · simp only [List.find?, hb] at h
        simp_all
      · simp only [List.find?, hb] at h
        simp_all
    · simp only [List.find?, hb] at h
      rcases ih h with ⟨l₁, l₂, heq, hall, hpa⟩
      exact ⟨b :: l₁, l₂, by simp [heq], by
        intro x hx
        rcases List.mem_cons.mp hx with hx | hx
        · simp [hx, Bool.not_eq_true] at hb ⊢
          exact hb
        · exact hall x hx, hpa⟩

theorem length_pushTrim5 (l : List RefreshEntry) (e : RefreshEntry) :
    (pushTrim5 l e).length ≤ 5 := by
  simp only [pushTrim5, List.length_drop]
  omega

theorem mem_pushTrim5 {l : List RefreshEntry} {e x : RefreshEntry}
    (hx : x ∈ pushTrim5 l e) : x ∈ l ∨ x = e := by
  have := List.mem_of_mem_drop hx
  simp only [List.mem_append, List.mem_singleton] at this
  exact this

theorem length_pullToken_le (l : List RefreshEntry) (t : Token) :
    (pullToken l t).length ≤ l.length :=
  List.length_filter_le _ l

theorem mem_pullToken {l : List RefreshEntry} {t : Token} {x : RefreshEntry}
    (hx : x ∈ pullToken l t) : x ∈ l ∧ x.token ≠ t := by
  have := List.mem_filter.mp hx
  simpa using this

theorem jwtDecode_eq_some {now : Nat} {tok : Token} {secret : Secret} {p : JwtPayload}
    (h : jwtDecode now tok secret = some p) :
    tok = Token.signed secret p ∧ now < p.exp := by
  cases tok with
  | malformed raw => simp [jwtDecode] at h
  | signed s q =>
    simp only [jwtDecode] at h
    split at h
    · rename_i hcond
      cases h
      exact ⟨by rw [hcond.1], hcond.2⟩
    · cases h

theorem verify_token_ok {now : Nat} {tok : Token} {ty : String} {p : JwtPayload}
    (h : verify_token now tok ty = Except.ok p) :
    tok = Token.signed (secretFor ty) p ∧ now < p.exp ∧ p.typ = ty := by
  unfold verify_token at h
  cases hd : jwtDecode now tok (secretFor ty) with
  | none => rw [hd] at h; cases h
  | some q =>
    rw [hd] at h
    by_cases hq : q.typ = ty
    · simp only [hq, if_true] at h
      cases h
      rcases jwtDecode_eq_some hd with ⟨h1, h2⟩
      exact ⟨h1, h2, hq⟩
    · simp only [hq, if_false] at h
      cases h

/-- C9: for every password of at most 72 bytes, verification of the password
against its own hash succeeds, and verification of any other distinct
password of at most 72 bytes against that hash fails; hashing and
verification share the same 72-byte truncation, so hashing ignores any bytes
appended beyond the limit and round-trips stay consistent for longer
inputs. -/
theorem c9_password_hash_roundtrip :
    (∀ p : List Nat, verify_password p (hash_password p) = true) ∧
    (∀ p₁ p₂ : List Nat, p₁.length ≤ 72 → p₂.length ≤ 72 → p₁ ≠ p₂ →
      verify_password p₂ (hash_password p₁) = false) ∧
    (∀ p extra : List Nat, 72 ≤ p.length → hash_password (p ++ extra) = hash_password p) := by
  refine ⟨fun p => by simp [verify_password], ?_, ?_⟩
  · intro p₁ p₂ h₁ h₂ hne
    simp only [verify_password, hash_password, List.take_of_length_le h₁,
      List.take_of_length_le h₂, decide_eq_false_iff_not]
    exact fun hc => hne hc.symm
  · intro p extra h
    simp only [hash_password, List.take_append_of_le_length h]

/-- Witness for C9 at concrete inputs. -/
theorem c9_password_hash_roundtrip_witness :
    verify_password [1, 2, 3] (hash_password [1, 2, 3]) = true ∧
    verify_password [9] (hash_password [1, 2, 3]) = false :=
  ⟨c9_password_hash_roundtrip.1 [1, 2, 3],
    c9_password_hash_roundtrip.2.1 [1, 2, 3] [9] (by decide) (by decide) (by decide)⟩

/-- C3 counterexample: the claim that malformed, expired, wrong-type and
badly-signed inputs all produce the same indistinguishable failure is false:
a system-issued guest token presented where an access token is expected fails
with detail "Invalid token type", while a malformed token fails with the
generic "Invalid or expired token" — two distinguishable details. -/
theorem c3_wrong_type_distinguishable :
    verify_token 0 (create_guest_token 0 "g1") "access"
      = Except.error ⟨401, Detail.msg "Invalid token type"⟩ ∧
    verify_token 0 (Token.malformed "junk") "access"
      = Except.error ⟨401, Detail.msg "Invalid or expired token"⟩ ∧
    Detail.msg "Invalid token type" ≠ Detail.msg "Invalid or expired token" :=
  ⟨rfl, rfl, by decide⟩

/-- C3 amended: `verify` either returns the claims (whose type claim matches
the expected kind) or fails with HTTP 401; malformed, badly-signed and
expired inputs all collapse to the same generic "Invalid or expired token"
failure, but a token that decodes under the expected secret with a different
embedded `type` claim fails with the distinguishable "Invalid token type"
detail. -/
theorem c3_amended_verify_failures (now : Nat) (tok : Token) (kind : String) :
    (∃ p, verify_token now tok kind = Except.ok p ∧ p.typ = kind) ∨
    (jwtDecode now tok (secretFor kind) = none ∧
      verify_token now tok kind = Except.error ⟨401, Detail.msg "Invalid or expired token"⟩) ∨
    (∃ p, jwtDecode now tok (secretFor kind) = some p ∧ p.typ ≠ kind ∧
      verify_token now tok kind = Except.error ⟨401, Detail.msg "Invalid token type"⟩) := by
  unfold verify_token
  cases hd : jwtDecode now tok (secretFor kind) with
  | none => exact Or.inr (Or.inl ⟨rfl, rfl⟩)
  | some p =>
    by_cases hty : p.typ = kind
    · exact Or.inl ⟨p, by simp [hty], hty⟩
    · exact Or.inr (Or.inr ⟨p, rfl, hty, by simp [hty]⟩)

/-- C4: for every well-formed credential, `forgot_password` answers with the
same generic success message whatever the state of the collection — in
particular whether or not a matching account exists — and that answer is a
success, never an error. -/
theorem c4_forgot_password_uniform_response (db₁ db₂ : DB) (now₁ now₂ : Nat)
    (credential : List Char) (tok₁ tok₂ : String)
    (hv : (validate_credential credential).isValid = true) :
    (forgot_password db₁ now₁ credential tok₁).2
      = (forgot_password db₂ now₂ credential tok₂).2 ∧
    ∃ m, (forgot_password db₁ now₁ credential tok₁).2 = Except.ok m := by
  unfold forgot_password
  simp only [hv, Bool.true_eq_false, if_false]
  constructor
  · cases List.find? _ db₁ <;> cases List.find? _ db₂ <;> simp
  · cases List.find? _ db₁ <;> simp

/-- Witness for C4: the same credential against a collection that contains a
matching account and against the empty collection. -/
theorem c4_forgot_password_uniform_response_witness :
    (forgot_password [realAcct] 50 "real@x.com".toList "rtok").2
      = (forgot_password [] 60 "real@x.com".toList "other").2 ∧
    ∃ m, (forgot_password [realAcct] 50 "real@x.com".toList "rtok").2 = Except.ok m :=
  c4_forgot_password_uniform_response _ _ _ _ _ _ _ (by decide)

/-- C7: a verified account with role official but `isOfficialVerified` still
false is refused at login with the pending-approval error; the collection is
returned untouched, so no refresh-token entry is appended and `lastLogin` is
not updated, and no tokens are issued. -/
theorem c7_official_login_blocked (db : DB) (now : Nat) (credential : List Char)
    (password : List Nat) (user : Account)
    (hv : (validate_credential credential).isValid = true)
    (hfind : List.find? (loginQuery (validate_credential credential) credential) db = some user)
    (hpw : verify_password password user.password = true)
    (hver : user.isVerified = true)
    (hrole : user.role = "official")
    (hoff : user.isOfficialVerified = false) :
    login db now credential password =
      (db, Except.error ⟨403, Detail.officialPending
        "Your official account is pending verification. Please contact your administrator."⟩) := by
  unfold login
  simp only [hv, Bool.true_eq_false, if_false, hfind, hpw, hver, hrole, hoff]
  simp

/-- Witness for C7: a concrete unapproved official account. -/
theorem c7_official_login_blocked_witness :
    login [officialAcct] 100 "off@x.com".toList [1, 2, 3, 4, 5, 6, 7, 8] =
      ([officialAcct],
        Except.error ⟨403, Detail.officialPending
          "Your official account is pending verification. Please contact your administrator."⟩) :=
  c7_official_login_blocked [officialAcct] 100 "off@x.com".toList [1, 2, 3, 4, 5, 6, 7, 8]
    officialAcct (by decide) (by decide) (by decide) rfl rfl rfl

theorem get?_updateOne (q : Account → Bool) (f : Account → Account) (db : DB) (i : Nat) :
    (updateOne q f db).get? i = db.get? i ∨
      ∃ a, db.get? i = some a ∧ (updateOne q f db).get? i = some (f a) := by
  induction db generalizing i with
  | nil => simp [updateOne]
  | cons a rest ih =>
    by_cases hqa : q a = true
    · rw [updateOne_cons_of_pos rest hqa]
      cases i with
      | zero => exact Or.inr ⟨a, rfl, rfl⟩
      | succ j => simp
    · have hrw : updateOne q f (a :: rest) = a :: updateOne q f rest := by
        simp [updateOne, hqa]
      rw [hrw]
      cases i with
      | zero => simp
      | succ j => simpa using ih j

theorem exists_updated_mem (q : Account → Bool) (f : Account → Account) (db : DB) (u : Account)
    (hu : u ∈ db) (hq : q u = true) :
    ∃ w, w ∈ db ∧ q w = true ∧ f w ∈ updateOne q f db := by
  have hsome : (List.find? q db).isSome = true :=
    List.find?_isSome.mpr ⟨u, hu, hq⟩
  cases hf : List.find? q db with
  | none => rw [hf] at hsome; cases hsome
  | some w =>
    rcases find?_split hf with ⟨l₁, l₂, heq, hall, hqw⟩
    refine ⟨w, List.mem_of_find?_eq_some hf, hqw, ?_⟩
    rw [heq, updateOne_append_of_none f _ hall, updateOne_cons_of_pos l₂ hqw]
    simp

/-- C10: on every successful `reset_password`, the collection keeps its
length; at every index the account keeps its id, credentials, verification
state and refresh-token list — so refresh sessions active before the reset
remain valid after it — and is either untouched or carries exactly the new
password hash, `updatedAt = now` and cleared reset-token fields; moreover
some account held the presented reset token, and some account of the result
carries the new hash with the reset fields cleared. -/
theorem c10_reset_password_frame (db : DB) (now : Nat) (token : String)
    (pw : List Nat) (db' : DB) (m : String)
    (h : reset_password db now token pw = (db', Except.ok m)) :
    db'.length = db.length ∧
    (∀ i a b, db.get? i = some a → db'.get? i = some b →
      (b.id = a.id ∧ b.fullName = a.fullName ∧ b.email = a.email ∧ b.phone = a.phone ∧
        b.role = a.role ∧ b.language = a.language ∧ b.profession = a.profession ∧
        b.isVerified = a.isVerified ∧ b.isOfficialVerified = a.isOfficialVerified ∧
        b.verificationToken = a.verificationToken ∧
        b.verificationTokenExpires = a.verificationTokenExpires ∧
        b.refreshTokens = a.refreshTokens ∧ b.lastLogin = a.lastLogin ∧
        b.officialId = a.officialId ∧ b.organization = a.organization ∧
        b.loginAttempts = a.loginAttempts ∧ b.createdAt = a.createdAt) ∧
      (b = a ∨ (b.password = hash_password pw ∧ b.passwordResetToken = none ∧
        b.passwordResetExpires = none ∧ b.updatedAt = now))) ∧
    (∃ u, u ∈ db ∧ u.passwordResetToken = some token) ∧
    (∃ b, b ∈ db' ∧ b.password = hash_password pw ∧ b.passwordResetToken = none ∧
      b.passwordResetExpires = none) := by
  cases hf : List.find? (fun a => decide (a.passwordResetToken = some token)) db with
  | none => simp [reset_password, hf] at h
  | some user =>
    have hdb : db' = updateOne (fun a => decide (a.id = user.id)) (resetUpdate now pw) db := by
      cases hexp : user.passwordResetExpires with
      | none =>
        simp only [reset_password, hf, hexp, Prod.mk.injEq] at h
        exact h.1.symm
      | some expiry =>
        by_cases hlt : expiry < now
        · simp [reset_password, hf, hexp, hlt] at h
        · simp only [reset_password, hf, hexp, hlt, if_false, Prod.mk.injEq] at h
          exact h.1.symm
    subst hdb
    refine ⟨length_updateOne _ _ _, ?_, ?_, ?_⟩
    · intro i a b ha hb
      rcases get?_updateOne (fun x => decide (x.id = user.id)) (resetUpdate now pw) db i
        with heq | ⟨c, hc, hc'⟩
      · rw [ha] at heq
        rw [heq] at hb
        cases hb
        exact ⟨⟨rfl, rfl, rfl, rfl, rfl, rfl, rfl, rfl, rfl, rfl, rfl, rfl, rfl, rfl, rfl,
          rfl, rfl⟩, Or.inl rfl⟩
      · rw [ha] at hc
        cases hc
        rw [hc'] at hb
        cases hb
        exact ⟨⟨rfl, rfl, rfl, rfl, rfl, rfl, rfl, rfl, rfl, rfl, rfl, rfl, rfl, rfl, rfl,
          rfl, rfl⟩, Or.inr ⟨rfl, rfl, rfl, rfl⟩⟩
    · have hp := List.find?_some hf
      simp only [decide_eq_true_eq] at hp
      exact ⟨user, List.mem_of_find?_eq_some hf, hp⟩
    · rcases exists_updated_mem (fun x => decide (x.id = user.id)) (resetUpdate now pw) db user
        (List.mem_of_find?_eq_some hf) (decide_eq_true rfl) with ⟨w, _, _, hmem⟩
      exact ⟨resetUpdate now pw w, hmem, rfl, rfl, rfl⟩

/-- Witness for C10: a concrete successful reset keeps the refresh session
and clears the reset fields. -/
theorem c10_reset_password_frame_witness :
    ∃ b, b ∈ (reset_password [resetAcct] 50 "rt" [9]).1 ∧ b.password = hash_password [9] ∧
      b.passwordResetToken = none ∧ b.passwordResetExpires = none :=
  (c10_reset_password_frame [resetAcct] 50 "rt" [9]
    (reset_password [resetAcct] 50 "rt" [9]).1 "Password reset successful" rfl).2.2.2

theorem mem_updateOne_of_not (q : Account → Bool) (f : Account → Account) {db : DB} {b : Account}
    (hb : b ∈ db) (hq : q b = false) : b ∈ updateOne q f db := by
  induction db with
  | nil => cases hb
  | cons a rest ih =>
    by_cases hqa : q a = true
    · rw [updateOne_cons_of_pos rest hqa]
      rcases List.mem_cons.mp hb with hba | hbr
      · subst hba; rw [hqa] at hq; cases hq
      · exact List.mem_cons_of_mem _ hbr
    · have hrw : updateOne q f (a :: rest) = a :: updateOne q f rest := by
        simp [updateOne, hqa]
      rw [hrw]
      rcases List.mem_cons.mp hb with hba | hbr
      · subst hba; exact List.mem_cons_self _ _
      · exact List.mem_cons_of_mem _ (ih hbr)

/-- C6: `verify_account` (over a collection with unique ids, the Mongo `_id`
invariant) fails with the invalid-or-expired 400 whenever no account carries
both the supplied id and exactly the supplied verification token — in
particular when the token belongs to a different account than the supplied id
— or when the stored expiry has passed (both 400 messages are the spec's
`InvalidOrExpiredToken`); on success it sets `isVerified`, clears both
verification-token fields, and leaves every other account in place. -/
theorem c6_verify_account_gate (db : DB) (now : Nat) (userId : Nat) (token : String)
    (hids : (db.map Account.id).Nodup) :
    ((¬ ∃ a, a ∈ db ∧ a.id = userId ∧ a.verificationToken = some token) →
      verify_account db now userId token =
        (db, Except.error ⟨400, Detail.msg "Invalid or expired verification token"⟩)) ∧
    (∀ a, a ∈ db → a.id = userId → a.verificationToken = some token →
      ((∀ e, a.verificationTokenExpires = some e → e < now →
        verify_account db now userId token =
          (db, Except.error ⟨400, Detail.msg "Verification token has expired"⟩)) ∧
      ((∀ e, a.verificationTokenExpires = some e → ¬ e < now) →
        ∃ db', verify_account db now userId token =
            (db', Except.ok "Account verified successfully") ∧
          (∃ b, b ∈ db' ∧ b.id = userId ∧ b.isVerified = true ∧
            b.verificationToken = none ∧ b.verificationTokenExpires = none) ∧
          (∀ b, b ∈ db → b.id ≠ userId → b ∈ db')))) := by
  constructor
  · intro hno
    have hfnone : List.find?
        (fun a => decide (a.id = userId) && decide (a.verificationToken = some token)) db
        = none := by
      refine List.find?_eq_none.mpr fun x hx hqx => ?_
      simp only [Bool.and_eq_true, decide_eq_true_eq] at hqx
      exact hno ⟨x, hx, hqx.1, hqx.2⟩
    simp [verify_account, hfnone]
  · intro a ha haid htok
    have hqa : (fun x => decide (x.id = userId) && decide (x.verificationToken = some token)) a
        = true := by
      simp [haid, htok]
    have hsome : (List.find?
        (fun x => decide (x.id = userId) && decide (x.verificationToken = some token)) db).isSome
        = true :=
      List.find?_isSome.mpr ⟨a, ha, hqa⟩
    obtain ⟨w, hfw⟩ := Option.isSome_iff_exists.mp hsome
    have hw : w = a := by
      have hmemw := List.mem_of_find?_eq_some hfw
      have hqw := List.find?_some hfw
      simp only [Bool.and_eq_true, decide_eq_true_eq] at hqw
      exact List.inj_on_of_nodup_map hids hmemw ha (by rw [hqw.1, haid])
    subst hw
    constructor
    · intro e hexp hlt
      simp [verify_account, hfw, hexp, hlt]
    · intro hne
      refine ⟨updateOne (fun x => decide (x.id = w.id)) (verifyUpdate now) db, ?_, ?_, ?_⟩
      · cases hexp : w.verificationTokenExpires with
        | none => simp [verify_account, hfw, hexp]
        | some e =>
          have hnl := hne e hexp
          simp [verify_account, hfw, hexp, hnl]
      · rcases exists_updated_mem (fun x => decide (x.id = w.id)) (verifyUpdate now) db w ha
          (decide_eq_true rfl) with ⟨w₂, hw₂mem, hw₂q, hw₂in⟩
        have hw₂ : w₂ = w := by
          simp only [decide_eq_true_eq] at hw₂q
          exact List.inj_on_of_nodup_map hids hw₂mem ha hw₂q
        subst hw₂
        exact ⟨verifyUpdate now w₂, hw₂in, by simp [verifyUpdate, haid], rfl, rfl, rfl⟩
      · intro b hb hbid
        refine mem_updateOne_of_not _ _ hb (decide_eq_false ?_)
        rw [haid]
        exact hbid

/-- Witness for C6: the concrete unverified account is verified at time 50
with the matching token, and the record ends verified with cleared token
fields. -/
theorem c6_verify_account_gate_witness :
    ∃ db', verify_account [verifyAcct] 50 1 "vt" =
        (db', Except.ok "Account verified successfully") ∧
      (∃ b, b ∈ db' ∧ b.id = 1 ∧ b.isVerified = true ∧
        b.verificationToken = none ∧ b.verificationTokenExpires = none) ∧
      (∀ b, b ∈ [verifyAcct] → b.id ≠ 1 → b ∈ db') :=
  (((c6_verify_account_gate [verifyAcct] 50 1 "vt" (by decide)).2 verifyAcct
    (by simp) rfl rfl).2) (by intro e he hlt; cases he; exact absurd hlt (by decide))

theorem login_db_cases (db : DB) (now : Nat) (c : List Char) (p : List Nat) :
    (login db now c p).1 = db ∨
    ∃ (user : Account) (rt : Token), (login db now c p).1 =
      updateOne (fun a => decide (a.id = user.id)) (loginUpdate now rt) db := by
  by_cases hval : (validate_credential c).isValid = false
  · left; simp [login, hval]
  · cases hf : List.find? (loginQuery (validate_credential c) c) db with
    | none => left; simp [login, hval, hf]
    | some user =>
      by_cases hpw : verify_password p user.password = false
      · left; simp [login, hval, hf, hpw]
      · by_cases hver : user.isVerified = false
        · left; simp [login, hval, hf, hpw, hver]
        · by_cases hoff : user.role = "official" ∧ user.isOfficialVerified = false
          · left; simp [login, hval, hf, hpw, hver, hoff]
          · right
            exact ⟨user, (generate_tokens now user).refreshToken,
              by simp [login, hval, hf, hpw, hver, hoff]⟩

theorem refresh_db_cases (db : DB) (now : Nat) (cookie : Option Token) :
    (refresh_token db now cookie).1 = db ∨
    ∃ (user : Account) (rt newTok : Token),
      (refresh_token db now cookie).1 =
        updateOne (fun a => decide (a.id = user.id)) (pushUpdate now newTok)
          (updateOne (fun a => decide (a.id = user.id)) (pullUpdate rt) db) := by
  cases cookie with
  | none => left; simp [refresh_token]
  | some rt =>
    cases hv : verify_token now rt "refresh" with
    | error e => left; simp [refresh_token, hv]
    | ok payload =>
      cases hf : List.find? (fun a => decide (payload.id = some a.id)) db with
      | none => left; simp [refresh_token, hv, hf]
      | some user =>
        by_cases hex : (user.refreshTokens.any (fun entry => decide (entry.token = rt))) = false
        · left; simp [refresh_token, hv, hf, hex]
        · right
          exact ⟨user, rt, (generate_tokens now user).refreshToken,
            by simp [refresh_token, hv, hf, hex]⟩

/-- C2: starting from any collection in which every account's refresh-token
list has at most five entries, any finite sequence of `login` and
`refresh_token` operations keeps every account's refresh-token list at five
entries or fewer: each successful operation appends the new entry and trims
the list to the most recent five. -/
theorem c2_refresh_list_bounded (db : DB) (ops : List AuthOp)
    (h : ∀ a, a ∈ db → a.refreshTokens.length ≤ 5) :
    ∀ a, a ∈ runOps db ops → a.refreshTokens.length ≤ 5 := by
  induction ops generalizing db with
  | nil => exact h
  | cons op rest ih =>
    refine ih (runOp db op) ?_
    intro a ha
    cases op with
    | loginOp now c p =>
      simp only [runOp] at ha
      rcases login_db_cases db now c p with hcase | ⟨user, rt, hcase⟩
      · rw [hcase] at ha; exact h a ha
      · rw [hcase] at ha
        rcases mem_updateOne ha with hmem | ⟨b, _, hab⟩
        · exact h a hmem
        · rw [hab]
          simpa [loginUpdate] using length_pushTrim5 b.refreshTokens ⟨rt, now⟩
    | refreshOp now cookie =>
      simp only [runOp] at ha
      rcases refresh_db_cases db now cookie with hcase | ⟨user, rt, newTok, hcase⟩
      · rw [hcase] at ha; exact h a ha
      · rw [hcase] at ha
        rcases mem_updateOne ha with hmem | ⟨b, _, hab⟩
        · rcases mem_updateOne hmem with hmem₁ | ⟨b, hb, hab⟩
          · exact h a hmem₁
          · rw [hab]
            simpa [pullUpdate] using le_trans (length_pullToken_le b.refreshTokens rt) (h b hb)
        · rw [hab]
          simpa [pushUpdate] using length_pushTrim5 b.refreshTokens ⟨newTok, now⟩

/-- Witness for C2: after a login followed by a refresh of the issued token
on a concrete one-account collection, the account's refresh list is still
within the bound. -/
theorem c2_refresh_list_bounded_witness :
    ((runOps [realAcct]
        [AuthOp.loginOp 10 "real@x.com".toList [],
          AuthOp.refreshOp 20 (some (create_refresh_token 10 1))]).headD
      baseAcct).refreshTokens.length ≤ 5 :=
  c2_refresh_list_bounded [realAcct]
    [AuthOp.loginOp 10 "real@x.com".toList [],
      AuthOp.refreshOp 20 (some (create_refresh_token 10 1))]
    (by decide) _ (by decide)


/-- C1 counterexample: the claim fails at the same-second corner.  The
stored refresh token of `mintAcct` was minted at time 10; exchanging it at
time 10 succeeds, but `create_refresh_token` writes only the account id, the
`type` claim and a second-granularity `exp` into the deterministic JWT, so
the freshly minted replacement is byte-identical to the presented token and
the `$push` restores exactly what the `$pull` removed.  Replaying the same
token at time 20 — cryptographically valid and unexpired — then succeeds
with a new pair instead of failing with the invalid-refresh error. -/
theorem c1_same_second_replay_succeeds :
    (refresh_token [mintAcct] 10 (some (create_refresh_token 10 1))).2
      = Except.ok (mintAcct, generate_tokens 10 mintAcct) ∧
    (generate_tokens 10 mintAcct).refreshToken = create_refresh_token 10 1 ∧
    verify_token 20 (create_refresh_token 10 1) "refresh"
      = Except.ok ⟨some 1, none, none, "refresh", 10 + refreshTTL⟩ ∧
    (refresh_token (refresh_token [mintAcct] 10 (some (create_refresh_token 10 1))).1
        20 (some (create_refresh_token 10 1))).2
      = Except.ok (mintAcct, generate_tokens 20 mintAcct) ∧
    (Except.ok (mintAcct, generate_tokens 20 mintAcct) :
        Except ApiError (Account × TokenPair))
      ≠ Except.error ⟨401, Detail.msg "401: Invalid refresh token"⟩ :=
  ⟨rfl, rfl, rfl, rfl, fun h => Except.noConfusion h⟩

/-- C1 amended: after a successful `refresh_token` call that exchanged the
presented token `t` and whose freshly minted refresh token differs from `t`
(hypothesis `hfresh` — it holds exactly when the two tokens carry different
`exp` claims, i.e. whenever `t` was not itself minted during the very second
of the exchange, the corner exhibited by the counterexample), presenting `t`
again against the resulting collection fails with the 401 invalid-refresh
error — even though `t` still verifies cryptographically and is unexpired at
the second call (hypothesis `h2`). -/
theorem c1_used_refresh_token_rejected (db : DB) (now now₂ : Nat) (t : Token)
    (user : Account) (tp : TokenPair) (pt : JwtPayload)
    (h1 : (refresh_token db now (some t)).2 = Except.ok (user, tp))
    (hfresh : tp.refreshToken ≠ t)
    (h2 : verify_token now₂ t "refresh" = Except.ok pt) :
    (refresh_token (refresh_token db now (some t)).1 now₂ (some t)).2
      = Except.error ⟨401, Detail.msg "401: Invalid refresh token"⟩ := by
  cases hv1 : verify_token now t "refresh" with
  | error e => simp [refresh_token, hv1] at h1
  | ok p₁ =>
    cases hf1 : List.find? (fun a => decide (p₁.id = some a.id)) db with
    | none => simp [refresh_token, hv1, hf1] at h1
    | some u₁ =>
      by_cases hex : (u₁.refreshTokens.any (fun entry => decide (entry.token = t))) = false
      · simp [refresh_token, hv1, hf1, hex] at h1
      · have hex' : (u₁.refreshTokens.any (fun entry => decide (entry.token = t))) = true := by
          revert hex
          cases u₁.refreshTokens.any (fun entry => decide (entry.token = t)) <;> simp
        have hsucc : u₁ = user ∧ generate_tokens now u₁ = tp := by
          simp only [refresh_token, hv1, hf1, hex', Bool.true_eq_false, if_false,
            Except.ok.injEq, Prod.mk.injEq] at h1
          exact h1
        have hdb1 : (refresh_token db now (some t)).1 =
            updateOne (fun a => decide (a.id = u₁.id))
              (pushUpdate now (generate_tokens now u₁).refreshToken)
              (updateOne (fun a => decide (a.id = u₁.id)) (pullUpdate t) db) := by
          simp [refresh_token, hv1, hf1, hex']
        have hpt : pt = p₁ := by
          rcases verify_token_ok h2 with ⟨ht2, _, _⟩
          rcases verify_token_ok hv1 with ⟨ht1, _, _⟩
          rw [ht2] at ht1
          simp only [Token.signed.injEq] at ht1
          exact ht1.2
        have hp₁id : p₁.id = some u₁.id := by
          have := List.find?_some hf1
          simpa using this
        have hqeq : (fun a : Account => decide (p₁.id = some a.id))
            = (fun a : Account => decide (a.id = u₁.id)) := by
          funext a
          apply decide_eq_decide.mpr
          rw [hp₁id]
          constructor
          · intro hx; injection hx with hx; exact hx.symm
          · intro hx; rw [hx]
        rw [hqeq] at hf1
        rcases find?_split hf1 with ⟨l₁, l₂, heqdb, hall, hq₁⟩
        have hdb2 : (refresh_token db now (some t)).1 =
            l₁ ++ pushUpdate now (generate_tokens now u₁).refreshToken (pullUpdate t u₁) :: l₂ := by
          rw [hdb1, heqdb]
          rw [updateOne_append_of_none _ _ hall, updateOne_cons_of_pos _ hq₁]
          rw [updateOne_append_of_none _ _ hall, updateOne_cons_of_pos _ (by simp [pullUpdate])]
        rw [hdb2]
        have hfind₂ : List.find? (fun a => decide (pt.id = some a.id))
            (l₁ ++ pushUpdate now (generate_tokens now u₁).refreshToken (pullUpdate t u₁) :: l₂)
            = some (pushUpdate now (generate_tokens now u₁).refreshToken (pullUpdate t u₁)) := by
          rw [hpt, hqeq]
          rw [find?_append_of_none _ hall]
          simp [List.find?, pushUpdate, pullUpdate]
        have hnotin : ((pushUpdate now (generate_tokens now u₁).refreshToken
            (pullUpdate t u₁)).refreshTokens.any (fun entry => decide (entry.token = t))) = false := by
          apply Bool.eq_false_iff.mpr
          intro hany
          rcases List.any_eq_true.mp hany with ⟨entry, hmem, hpe⟩
          simp only [decide_eq_true_eq] at hpe
          simp only [pushUpdate] at hmem
          rcases mem_pushTrim5 hmem with hin | hin
          · simp only [pullUpdate] at hin
            exact (mem_pullToken hin).2 hpe
          · rw [hin] at hpe
            exact hfresh (by rw [← hsucc.2]; exact hpe)
        simp [refresh_token, h2, hfind₂, hnotin]

/-- Witness for C1: account 1 exchanges its stored refresh token at time 10;
replaying the same token at time 20 (well before its expiry 1000) is
rejected. -/
theorem c1_used_refresh_token_rejected_witness :
    (refresh_token (refresh_token [sessionAcct] 10 (some oldRefreshTok)).1
        20 (some oldRefreshTok)).2
      = Except.error ⟨401, Detail.msg "401: Invalid refresh token"⟩ :=
  c1_used_refresh_token_rejected [sessionAcct] 10 20 oldRefreshTok sessionAcct
    (generate_tokens 10 sessionAcct) ⟨some 1, none, none, "refresh", 1000⟩
    rfl (by decide) rfl

theorem nodup_split_ne {l₁ l₂ : DB} {a : Account}
    (hids : ((l₁ ++ a :: l₂).map Account.id).Nodup) : ∀ x ∈ l₁, x.id ≠ a.id := by
  intro x hx heq
  rw [List.map_append] at hids
  rcases List.nodup_append.mp hids with ⟨_, _, hdisj⟩
  exact hdisj (List.mem_map.mpr ⟨x, hx, heq⟩) (by simp)

theorem registerOverwrite_spec (now : Nat) (data : RegisterData) (vtok : String) (a : Account) :
    (registerOverwrite now data vtok a).id = a.id ∧
    (registerOverwrite now data vtok a).fullName = data.fullName ∧
    (registerOverwrite now data vtok a).email = data.email.map Char.toLower ∧
    (registerOverwrite now data vtok a).password = hash_password data.password ∧
    (registerOverwrite now data vtok a).role = data.role ∧
    (registerOverwrite now data vtok a).language = data.language ∧
    (registerOverwrite now data vtok a).profession = data.profession ∧
    (registerOverwrite now data vtok a).verificationToken = some vtok ∧
    (registerOverwrite now data vtok a).verificationTokenExpires = some (now + 24 * 3600) ∧
    (registerOverwrite now data vtok a).isVerified = a.isVerified := by
  unfold registerOverwrite
  cases hp : data.phone with
  | none => by_cases hr : data.role = "official" <;> simp [hr]
  | some p =>
    by_cases hpe : p = [] <;> by_cases hr : data.role = "official" <;> simp [hpe, hr]

/-- C5: `register` over a collection with unique ids, for a valid
registration whose duplicate query matches an existing account: if that
account is verified, the call fails with the conflict error and leaves the
collection alone; if it is unverified, the call overwrites that same
account's record in place — same id, same collection length (no new account),
still unverified — with the new name, lowered email, password hash and role,
and stores the fresh verification token with its 24-hour expiry. -/
theorem c5_register_duplicate_handling (db : DB) (now : Nat) (req : RegisterData)
    (vtok : String) (newId : Nat) (existing : Account)
    (hids : (db.map Account.id).Nodup)
    (hvalid : registration_errors (sanitize_user_data req) = [])
    (hfind : List.find? (registerQuery (sanitize_user_data req)) db = some existing) :
    (existing.isVerified = true →
      register db now req vtok newId =
        (db, Except.error ⟨400, Detail.msg "User already exists with this email or phone"⟩)) ∧
    (existing.isVerified = false →
      (register db now req vtok newId).1.length = db.length ∧
      ∃ u, (register db now req vtok newId).2 = Except.ok (some u,
          "Registration updated successfully. Please check your email for verification.") ∧
        u.id = existing.id ∧ u.isVerified = false ∧
        u.fullName = (sanitize_user_data req).fullName ∧
        u.email = (sanitize_user_data req).email.map Char.toLower ∧
        u.password = hash_password (sanitize_user_data req).password ∧
        u.role = (sanitize_user_data req).role ∧
        u.verificationToken = some vtok ∧
        u.verificationTokenExpires = some (now + 24 * 3600)) := by
  constructor
  · intro hverif
    simp [register, hvalid, hfind, hverif]
  · intro hunv
    rcases find?_split hfind with ⟨l₁, l₂, heqdb, _, _⟩
    have hne := nodup_split_ne (heqdb ▸ hids)
    have hfrontNone : ∀ x ∈ l₁, (fun a => decide (a.id = existing.id)) x = false := by
      intro x hx
      exact decide_eq_false (hne x hx)
    have hupd : updateOne (fun a => decide (a.id = existing.id))
        (registerOverwrite now (sanitize_user_data req) vtok) db
        = l₁ ++ registerOverwrite now (sanitize_user_data req) vtok existing :: l₂ := by
      rw [heqdb, updateOne_append_of_none _ _ hfrontNone,
        updateOne_cons_of_pos _ (decide_eq_true rfl)]
    have hrefetch : List.find? (fun a => decide (a.id = existing.id))
        (updateOne (fun a => decide (a.id = existing.id))
          (registerOverwrite now (sanitize_user_data req) vtok) db)
        = some (registerOverwrite now (sanitize_user_data req) vtok existing) := by
      rw [hupd, find?_append_of_none _ hfrontNone]
      simp [List.find?, (registerOverwrite_spec now (sanitize_user_data req) vtok existing).1]
    refine ⟨?_, registerOverwrite now (sanitize_user_data req) vtok existing, ?_, ?_⟩
    · simp only [register, hvalid, hfind, hunv]
      simp [length_updateOne]
    · simp only [register, hvalid, hfind, hunv]
      simp [hrefetch]
    · rcases registerOverwrite_spec now (sanitize_user_data req) vtok existing with
        ⟨h₁, h₂, h₃, h₄, h₅, _, _, h₈, h₉, h₁₀⟩
      exact ⟨h₁, by rw [h₁₀, hunv], h₂, h₃, h₄, h₅, h₈, h₉⟩

/-- Witness for C5: re-registering the abandoned `dup@x.com` signup
overwrites it in place with a fresh verification token. -/
theorem c5_register_duplicate_handling_witness :
    (register [dupAcct] 30 regReq "fresh" 99).1.length = ([dupAcct] : DB).length ∧
    ∃ u, (register [dupAcct] 30 regReq "fresh" 99).2 = Except.ok (some u,
        "Registration updated successfully. Please check your email for verification.") ∧
      u.id = dupAcct.id ∧ u.isVerified = false ∧
      u.fullName = (sanitize_user_data regReq).fullName ∧
      u.email = (sanitize_user_data regReq).email.map Char.toLower ∧
      u.password = hash_password (sanitize_user_data regReq).password ∧
      u.role = (sanitize_user_data regReq).role ∧
      u.verificationToken = some "fresh" ∧
      u.verificationTokenExpires = some (30 + 24 * 3600) :=
  (c5_register_duplicate_handling [dupAcct] 30 regReq "fresh" 99 dupAcct
    (by decide) (by decide) (by decide)).2 rfl

theorem char_digit_iff (d : Char) :
    ('1' ≤ d ∧ d ≤ '9') ↔ (d.isDigit = true ∧ d ≠ '0') := by
  constructor
  · rintro ⟨h1, h2⟩
    refine ⟨by simp [Char.isDigit, Char.le_def, UInt32.le_def, BitVec.le_def] at *; omega, ?_⟩
    intro hc
    subst hc
    simp [Char.le_def, UInt32.le_def, BitVec.le_def] at h1
  · rintro ⟨h1, h0⟩
    simp [Char.isDigit, Char.le_def, UInt32.le_def, BitVec.le_def] at *
    have hne : d.val.toBitVec.toNat ≠ 48 := by
      intro hc
      apply h0
      apply Char.ext
      apply UInt32.eq_of_toBitVec_eq
      apply BitVec.eq_of_toNat_eq
      simpa using hc
    omega

theorem phoneDigitsOk_iff (ds : List Char) :
    phoneDigitsOk ds = true ↔
      ((∀ x ∈ ds, x.isDigit = true) ∧ 2 ≤ ds.length ∧ ds.length ≤ 15 ∧
        ds.head? ≠ some '0') := by
  cases ds with
  | nil => simp [phoneDigitsOk]
  | cons d rest =>
    simp only [phoneDigitsOk, Bool.and_eq_true, decide_eq_true_eq, List.all_eq_true]
    constructor
    · rintro ⟨⟨⟨⟨h19, hle⟩, hdig⟩, h1⟩, h14⟩
      have hd := (char_digit_iff d).mp ⟨h19, hle⟩
      refine ⟨?_, ?_, ?_, ?_⟩
      · intro x hx
        rcases List.mem_cons.mp hx with hx | hx
        · rw [hx]; exact hd.1
        · exact hdig x hx
      · simp only [List.length_cons]; omega
      · simp only [List.length_cons]; omega
      · simpa using hd.2
    · rintro ⟨hdig, h2, h15, h0⟩
      have hd0 : d ≠ '0' := by simpa using h0
      have hd := (char_digit_iff d).mpr ⟨hdig d (by simp), hd0⟩
      simp only [List.length_cons] at h2 h15
      exact ⟨⟨⟨hd, fun x hx => hdig x (by simp [hx])⟩, by omega⟩, by omega⟩

theorem validate_phone_iff (s : List Char) :
    validate_phone s = true ↔ specPhone (stripSeps s) := by
  unfold validate_phone specPhone
  cases hc : stripSeps s with
  | nil =>
    simp only [List.head?, phoneDigitsOk]
    constructor
    · intro h; cases h
    · rintro ⟨ds, hds | hds, _, h2, _, _⟩
      · rw [← hds] at h2; simp at h2
      · cases hds
  | cons c rest =>
    by_cases hplus : c = '+'
    · subst hplus
      dsimp only
      rw [if_pos (show ('+' :: rest : List Char).head? = some '+' from rfl)]
      simp only [List.tail_cons]
      rw [phoneDigitsOk_iff]
      constructor
      · rintro ⟨hdig, h2, h15, h0⟩
        exact ⟨rest, Or.inr rfl, hdig, h2, h15, h0⟩
      · rintro ⟨ds, hds | hds, hdig, h2, h15, h0⟩
        · exfalso
          have : ('+' : Char).isDigit = true := hdig '+' (by rw [← hds]; simp)
          simp at this
        · cases hds
          exact ⟨hdig, h2, h15, h0⟩
    · dsimp only
      rw [if_neg (by simp [hplus])]
      rw [phoneDigitsOk_iff]
      constructor
      · rintro ⟨hdig, h2, h15, h0⟩
        exact ⟨c :: rest, Or.inl rfl, hdig, h2, h15, h0⟩
      · rintro ⟨ds, hds | hds, hdig, h2, h15, h0⟩
        · cases hds
          exact ⟨hdig, h2, h15, h0⟩
        · exfalso
          injection hds with h1 h2
          exact hplus h1

theorem dropWhile_eq_cons_head {α : Type} (p : α → Bool) (l : List α) (x : α) (xs : List α)
    (h : l.dropWhile p = x :: xs) : p x = false := by
  induction l with
  | nil => simp at h
  | cons a rest ih =>
    rw [List.dropWhile_cons] at h
    by_cases hp : p a = true
    · rw [if_pos hp] at h; exact ih h
    · rw [if_neg hp] at h
      cases h
      revert hp
      cases p x <;> simp

theorem takeWhile_split (c : Char) (l₁ l₂ : List Char) (h : ∀ x ∈ l₁, x ≠ c) :
    (l₁ ++ c :: l₂).takeWhile (fun x => decide (x ≠ c)) = l₁ ∧
    (l₁ ++ c :: l₂).dropWhile (fun x => decide (x ≠ c)) = c :: l₂ := by
  induction l₁ with
  | nil =>
    constructor
    · simp [List.takeWhile_cons]
    · simp [List.dropWhile_cons]
  | cons a rest ih =>
    have ha : a ≠ c := h a (by simp)
    have ih' := ih fun x hx => h x (by simp [hx])
    have hpa : (fun x => decide (x ≠ c)) a = true := decide_eq_true ha
    constructor
    · rw [List.cons_append, List.takeWhile_cons, if_pos hpa, ih'.1]
    · rw [List.cons_append, List.dropWhile_cons, if_pos hpa, ih'.2]

theorem validate_email_iff (cs : List Char) :
    validate_email cs = true ↔ specEmail cs := by
  constructor
  · intro hv
    unfold validate_email at hv
    cases hd : cs.dropWhile (fun x => decide (x ≠ '@')) with
    | nil => rw [hd] at hv; cases hv
    | cons hd0 rest =>
      rw [hd] at hv
      simp only [Bool.and_eq_true, decide_eq_true_eq, List.all_eq_true] at hv
      obtain ⟨⟨hne, hlocl⟩, hdomOk⟩ := hv
      have h0 : hd0 = '@' := by
        have hh := dropWhile_eq_cons_head _ cs hd0 rest hd
        simpa using hh
      subst h0
      unfold emailDomainOk at hdomOk
      dsimp only at hdomOk
      cases hd2 : rest.reverse.dropWhile (fun x => decide (x ≠ '.')) with
      | nil => rw [hd2] at hdomOk; cases hdomOk
      | cons hd2c domRev =>
        rw [hd2] at hdomOk
        simp only [Bool.and_eq_true, decide_eq_true_eq, List.all_eq_true] at hdomOk
        obtain ⟨⟨⟨hdomne, hdomc⟩, htldlen⟩, htldalpha⟩ := hdomOk
        have h2c : hd2c = '.' := by
          simpa using dropWhile_eq_cons_head _ rest.reverse hd2c domRev hd2
        subst h2c
        refine ⟨cs.takeWhile (fun x => decide (x ≠ '@')), domRev.reverse,
          (rest.reverse.takeWhile (fun x => decide (x ≠ '.'))).reverse,
          ?_, hne, hlocl, ?_, ?_, ?_, ?_⟩
        · have hsplit := List.takeWhile_append_dropWhile (fun x => decide (x ≠ '@')) cs
          rw [hd] at hsplit
          have hsplit2 := List.takeWhile_append_dropWhile (fun x => decide (x ≠ '.')) rest.reverse
          rw [hd2] at hsplit2
          have hrest : rest = domRev.reverse ++ '.' ::
              (rest.reverse.takeWhile (fun x => decide (x ≠ '.'))).reverse := by
            have hcongr := congrArg List.reverse hsplit2
            simpa [List.reverse_append] using hcongr.symm
          have hgoal : cs = cs.takeWhile (fun x => decide (x ≠ '@')) ++ '@' :: rest :=
            hsplit.symm
          rw [hrest] at hgoal
          exact hgoal
        · simpa using hdomne
        · intro x hx; exact hdomc x (List.mem_reverse.mp hx)
        · simpa [List.length_reverse] using htldlen
        · intro x hx; exact htldalpha x (List.mem_reverse.mp hx)
  · rintro ⟨locl, dom, tld, heq, hne, hlocl, hdomne, hdomc, htldlen, htldalpha⟩
    have hl : ∀ x ∈ locl, x ≠ '@' := by
      intro x hx hc
      have hx' := hlocl x hx
      rw [hc] at hx'
      exact absurd hx' (by decide)
    obtain ⟨hts, hds⟩ := takeWhile_split '@' locl (dom ++ '.' :: tld) hl
    unfold validate_email
    rw [heq, hds, hts]
    simp only [Bool.and_eq_true, decide_eq_true_eq, List.all_eq_true]
    refine ⟨⟨hne, hlocl⟩, ?_⟩
    have htl : ∀ x ∈ tld.reverse, x ≠ '.' := by
      intro x hx hc
      have hx' := htldalpha x (List.mem_reverse.mp hx)
      rw [hc] at hx'
      exact absurd hx' (by decide)
    obtain ⟨hts2, hds2⟩ := takeWhile_split '.' tld.reverse dom.reverse htl
    unfold emailDomainOk
    dsimp only
    have hrev : (dom ++ '.' :: tld).reverse = tld.reverse ++ '.' :: dom.reverse := by
      simp [List.reverse_append]
    rw [hrev, hds2, hts2]
    simp only [Bool.and_eq_true, decide_eq_true_eq, List.all_eq_true]
    refine ⟨⟨⟨by simpa using hdomne, fun x hx => hdomc x (List.mem_reverse.mp hx)⟩,
      by simpa [List.length_reverse] using htldlen⟩,
      fun x hx => htldalpha x (List.mem_reverse.mp hx)⟩

/-- C8 counterexample: the input "012" is already separator-free and
whitespace-free, consists purely of digits, and has 3 digits (within 2 to 15)
with no leading `+`; the claim therefore classifies it as a phone, but the
classifier rejects it with the invalid-credential error, because the phone
regex demands a nonzero first digit (`[1-9]`). -/
theorem c8_leading_zero_phone_rejected :
    (stripSeps (pyStrip "012".toList) = "012".toList ∧
      "012".toList.all Char.isDigit = true ∧
      2 ≤ "012".toList.length ∧ "012".toList.length ≤ 15) ∧
    validate_credential "012".toList =
      ⟨false, none, none, some "Please provide a valid email address or phone number"⟩ := by
  decide

/-- C8 amended: the classifier first trims surrounding whitespace; if the
trimmed input matches the email shape it classifies as email with the trimmed
value lower-cased (the email check runs first, so an ambiguous string
classifies as email); otherwise, if after stripping separators the trimmed
input is an optional leading `+` followed by 2-15 digits whose first digit is
nonzero, it classifies as phone with the value normalized to the canonical
`+`-prefixed digit string; otherwise it fails with the invalid-credential
error. -/
theorem c8_amended_credential_classifier (s : List Char) :
    (specEmail (pyStrip s) →
      validate_credential s = ⟨true, some CredentialType.email,
        some ((pyStrip s).map Char.toLower), none⟩) ∧
    (¬ specEmail (pyStrip s) → specPhone (stripSeps (pyStrip s)) →
      ∃ ds, (stripSeps (pyStrip s) = ds ∨ stripSeps (pyStrip s) = '+' :: ds) ∧
        (∀ x ∈ ds, x.isDigit = true) ∧ 2 ≤ ds.length ∧ ds.length ≤ 15 ∧
        validate_credential s = ⟨true, some CredentialType.phone, some ('+' :: ds), none⟩) ∧
    (¬ specEmail (pyStrip s) → ¬ specPhone (stripSeps (pyStrip s)) →
      validate_credential s = ⟨false, none, none,
        some "Please provide a valid email address or phone number"⟩) := by
  refine ⟨?_, ?_, ?_⟩
  · intro hse
    have hvm : validate_email (pyStrip s) = true := (validate_email_iff _).mpr hse
    simp [validate_credential, hvm]
  · intro hnse hsp
    have hvm : validate_email (pyStrip s) = false := by
      cases hvm : validate_email (pyStrip s) with
      | false => rfl
      | true => exact absurd ((validate_email_iff _).mp hvm) hnse
    have hvp : validate_phone (pyStrip s) = true := (validate_phone_iff _).mpr hsp
    rcases hsp with ⟨ds, hds, hdig, h2, h15, h0⟩
    refine ⟨ds, hds, hdig, h2, h15, ?_⟩
    have hnorm : normalize_phone (pyStrip s) = '+' :: ds := by
      unfold normalize_phone
      dsimp only
      rcases hds with hds | hds
      · rw [hds]
        cases hd : ds with
        | nil => rw [hd] at h2; simp at h2
        | cons d rest =>
          have hddig : d.isDigit = true := hdig d (by rw [hd]; simp)
          have hdne : d ≠ '+' := by
            intro hc
            rw [hc] at hddig
            exact absurd hddig (by decide)
          rw [if_neg (by simp [hdne])]
      · rw [hds]
        rw [if_pos (show ('+' :: ds : List Char).head? = some '+' from rfl)]
    simp [validate_credential, hvm, hvp, hnorm]
  · intro hnse hnsp
    have hvm : validate_email (pyStrip s) = false := by
      cases hvm : validate_email (pyStrip s) with
      | false => rfl
      | true => exact absurd ((validate_email_iff _).mp hvm) hnse
    have hvp : validate_phone (pyStrip s) = false := by
      cases hvp : validate_phone (pyStrip s) with
      | false => rfl
      | true => exact absurd ((validate_phone_iff _).mp hvp) hnsp
    simp [validate_credential, hvm, hvp]

/-- Witness for C8 at three concrete inputs: an email with surrounding
whitespace and a capital letter, a formatted phone number, and a string
fitting neither shape. -/
theorem c8_amended_credential_classifier_witness :
    validate_credential " A@x.com ".toList = ⟨true, some CredentialType.email,
      some "a@x.com".toList, none⟩ ∧
    (∃ ds, (stripSeps (pyStrip "+91 98765-43210".toList) = ds ∨
        stripSeps (pyStrip "+91 98765-43210".toList) = '+' :: ds) ∧
      (∀ x ∈ ds, x.isDigit = true) ∧ 2 ≤ ds.length ∧ ds.length ≤ 15 ∧
      validate_credential "+91 98765-43210".toList =
        ⟨true, some CredentialType.phone, some ('+' :: ds), none⟩) ∧
    validate_credential "no at sign".toList = ⟨false, none, none,
      some "Please provide a valid email address or phone number"⟩ := by
  refine ⟨?_, ?_, ?_⟩
  · have := (c8_amended_credential_classifier " A@x.com ".toList).1
      ⟨"A".toList, "x".toList, "com".toList, by decide, by decide,
        by decide, by decide, by decide, by decide, by decide⟩
    simpa using this
  · exact (c8_amended_credential_classifier "+91 98765-43210".toList).2.1
      (fun hse => absurd ((validate_email_iff _).mpr hse) (by decide))
      ⟨"919876543210".toList, Or.inr (by decide), by decide, by decide, by decide, by decide⟩
  · exact (c8_amended_credential_classifier "no at sign".toList).2.2
      (fun hse => absurd ((validate_email_iff _).mpr hse) (by decide))
      (fun hsp => absurd ((validate_phone_iff _).mpr hsp) (by decide))
